import Mathlib

/-!
Shallow embedding of `app.py` (Fortnite item-shop Flask application) and
verification of its specification claims.

Modelling conventions:
* Python JSON-like values are the inductive `Json`; Python truthiness is
  `truthy`, `x or y` on such values is `pyOr`.
* Python `d.get(k)` is `Json.get`: it returns `Json.null` for an absent key
  of a dict and raises `AttributeError` on a non-dict, modelled with
  `Except PyErr`.  Fallible Python code is embedded in `Except PyErr`.
* Naive `datetime` values are instants on a wall-clock line, measured in
  microseconds as an `Int` (day `d` spans `[d*usPerDay, (d+1)*usPerDay)`).
  `datetime.replace`, `timedelta` arithmetic and comparisons on
  timezone-aware values sharing one zone are wall-clock operations at the
  uses in this program (the 20:00 boundary is never inside a DST jump,
  which occurs at 2:00 in America/Toronto), so the wall-clock line is a
  faithful model.  The `astimezone(UTC).replace(tzinfo=None)` conversion is
  an external timezone-database function and enters as a parameter
  `torToUtc`.
* Database tables are Lean lists in insertion order; SQLAlchemy
  `filter_by(...).first()` is a first-match scan, `order_by(desc).first()`
  a maximum scan.
* String helpers (`pyLower`, `pyStrip`, `pyStartsWith`, `containsSub`)
  are executable models of `str.lower`, `str.strip`, `str.startswith` and
  the `in` substring test, defined over character lists so that the kernel
  can evaluate them.
-/

/-- Python-style JSON-ish value: `None`, booleans, numbers (modelled as
integers; no claim touches float payload values), strings, lists, dicts. -/
inductive Json where
  | null
  | bool (b : Bool)
  | num (n : Int)
  | str (s : String)
  | arr (xs : List Json)
  | obj (kvs : List (String × Json))

/-- Python exception kinds reachable in the embedded code. -/
inductive PyErr where
  | attributeError
  | typeError
deriving DecidableEq

/-- Python truthiness of a JSON-ish value. -/
def truthy : Json → Bool
  | Json.null => false
  | Json.bool b => b
  | Json.num n => !(n == 0)
  | Json.str s => !(s == "")
  | Json.arr xs => !(xs.isEmpty)
  | Json.obj kvs => !(kvs.isEmpty)

/-- Python `a or b` on JSON-ish values. -/
def pyOr (a b : Json) : Json := if truthy a then a else b

/-- First-match association-list lookup, `Json.null` when absent
(Python `dict.get` default). -/
def lookup : List (String × Json) → String → Json
  | [], _ => Json.null
  | (k, v) :: kvs, key => if k == key then v else lookup kvs key

/-- Python `x.get(k)`: dict lookup, `AttributeError` on a non-dict. -/
def Json.get : Json → String → Except PyErr Json
  | Json.obj kvs, k => Except.ok (lookup kvs k)
  | _, _ => Except.error PyErr.attributeError

/-- Total lookup used by spec-side definitions: `Json.null` on a non-dict. -/
def jget : Json → String → Json
  | Json.obj kvs, k => lookup kvs k
  | _, _ => Json.null

/-- ASCII lower-casing of one character (`str.lower` restricted to ASCII,
which covers every keyword and extension the program compares). -/
def lowerChar (c : Char) : Char :=
  if 65 ≤ c.toNat ∧ c.toNat ≤ 90 then Char.ofNat (c.toNat + 32) else c

/-- Python `s.lower()`. -/
def pyLower (s : String) : String := String.mk (s.data.map lowerChar)

/-- Whether `needle` is a prefix of `hay` (character lists). -/
def strStarts : List Char → List Char → Bool
  | [], _ => true
  | _ :: _, [] => false
  | c :: cs, h :: hs => c == h && strStarts cs hs

/-- Whether `needle` occurs contiguously in `hay` (character lists). -/
def listFind : List Char → List Char → Bool
  | needle, [] => strStarts needle []
  | needle, h :: hs => strStarts needle (h :: hs) || listFind needle hs

/-- Python `needle in hay` on strings. -/
def containsSub (hay needle : String) : Bool := listFind needle.toList hay.toList

/-- Python `s.startswith(p)`. -/
def pyStartsWith (s p : String) : Bool := strStarts p.toList s.toList

/-- Whitespace characters stripped by Python `str.strip()` (the ASCII ones;
exotic unicode whitespace is not modelled and unreachable in the claims). -/
def isSpaceChar (c : Char) : Bool :=
  c == ' ' || c == '\t' || c == '\n' || c == '\r' || c == '\x0b' || c == '\x0c'

/-- Python `s.strip()`. -/
def pyStrip (s : String) : String :=
  String.mk (((s.data.dropWhile isSpaceChar).reverse.dropWhile isSpaceChar).reverse)

mutual
/-- Python `repr` of a JSON-ish value (container element rendering of
`str(...)`; single-quote escaping inside strings is not modelled and no
claim reaches it). -/
def pyRepr : Json → String
  | Json.null => "None"
  | Json.bool b => if b then "True" else "False"
  | Json.num n => toString n
  | Json.str s => "'" ++ s ++ "'"
  | Json.arr xs => "[" ++ pyReprL xs ++ "]"
  | Json.obj kvs => "\x7b" ++ pyReprO kvs ++ "\x7d"
termination_by structural j => j
def pyReprL : List Json → String
  | [] => ""
  | [x] => pyRepr x
  | x :: xs => pyRepr x ++ ", " ++ pyReprL xs
termination_by structural xs => xs
def pyReprO : List (String × Json) → String
  | [] => ""
  | [(k, v)] => "'" ++ k ++ "': " ++ pyRepr v
  | (k, v) :: kvs => "'" ++ k ++ "': " ++ pyRepr v ++ ", " ++ pyReprO kvs
termination_by structural kvs => kvs
end

/-- Python `str(x)` for a JSON-ish value. -/
def pyStr : Json → String
  | Json.str s => s
  | v => pyRepr v

/-- Microseconds per day. -/
def usPerDay : Int := 86400000000

/-- Microseconds from midnight to 20:00. -/
def us8pm : Int := 72000000000

/-- Wall-clock 20:00 of the day containing `t`:
`now_tor.replace(hour=20, minute=0, second=0, microsecond=0)`. -/
def todayBoundary (t : Int) : Int := usPerDay * (t / usPerDay) + us8pm

/-- `last_8pm_boundary_toronto` from `app.py`: today's 20:00 when `now`
has reached it, otherwise `today_8pm - timedelta(days=1)`. -/
def last_8pm_boundary_toronto (t : Int) : Int :=
  if todayBoundary t ≤ t then todayBoundary t else todayBoundary t - usPerDay

/-- `shop_day_str` from `app.py`, with the ISO date label abstracted to the
day index of the boundary (ISO rendering is injective on days, and the
label is only ever compared for equality). -/
def shop_day (t : Int) : Int := last_8pm_boundary_toronto t / usPerDay

/-- Image extensions recognized by `best_image` in `app.py`. -/
def imgExts : List String := [".png", ".webp", ".jpg", ".jpeg"]

/-- Keywords rewarded by `score_url` in `app.py`. -/
def imgKeywords : List String := ["offer", "tile", "shop", "render", "background"]

/-- The leaf condition of the `walk` scanner in `best_image`:
`x.startswith("http") and any(ext in x.lower() for ext in ...)`. -/
def isImgCandidate (x : String) : Bool :=
  pyStartsWith x "http" && (imgExts.any fun e => containsSub (pyLower x) e)

/-- `score_url` from `best_image` in `app.py`. -/
def score_url (url : String) : Int :=
  let u := pyLower url
  let s : Int := imgKeywords.foldl (fun acc kw => if containsSub u kw then acc + 10 else acc) 0
  let s := if imgExts.any (fun e => containsSub u e) then s + 5 else s
  let s := if containsSub u "small" || containsSub u "icon" then s - 2 else s
  s

mutual
/-- The `walk` scanner of `best_image`: collect, in traversal order, every
string in the document satisfying `isImgCandidate`. -/
def walk : Json → List String
  | Json.null => []
  | Json.bool _ => []
  | Json.num _ => []
  | Json.str s => if isImgCandidate s then [s] else []
  | Json.arr xs => walkL xs
  | Json.obj kvs => walkO kvs
termination_by structural j => j
def walkL : List Json → List String
  | [] => []
  | x :: xs => walk x ++ walkL xs
termination_by structural xs => xs
def walkO : List (String × Json) → List String
  | [] => []
  | (_, v) :: kvs => walk v ++ walkO kvs
termination_by structural kvs => kvs
end

mutual
/-- Every string occurring anywhere in a document, in traversal order
(helper for characterizing `walk`). -/
def strings : Json → List String
  | Json.null => []
  | Json.bool _ => []
  | Json.num _ => []
  | Json.str s => [s]
  | Json.arr xs => stringsL xs
  | Json.obj kvs => stringsO kvs
termination_by structural j => j
def stringsL : List Json → List String
  | [] => []
  | x :: xs => strings x ++ stringsL xs
termination_by structural xs => xs
def stringsO : List (String × Json) → List String
  | [] => []
  | (_, v) :: kvs => strings v ++ stringsO kvs
termination_by structural kvs => kvs
end

/-- Descending-score ordering used to model
`found.sort(key=score_url, reverse=True)`. -/
def scoreGE (a b : String) : Prop := score_url b ≤ score_url a

instance : DecidableRel scoreGE :=
  fun a b => inferInstanceAs (Decidable (score_url b ≤ score_url a))

instance : IsTotal String scoreGE := ⟨fun a b => le_total (score_url b) (score_url a)⟩

instance : IsTrans String scoreGE := ⟨fun _ _ _ h1 h2 => le_trans h2 h1⟩

/-- Fallback step 5 of `best_image`: scan the entry, sort the candidates by
descending score and return the first, or `""` when none exist. -/
def scanFallback (entry : Json) : String :=
  let found := walk entry
  if found.isEmpty then "" else (found.insertionSort scoreGE).headI

/-- First named image slot among `keys` of a dict whose value is a string
starting with `"http"` (the inner loops of steps 2-4 of `best_image`). -/
def firstHttpKey (kvs : List (String × Json)) : List String → Option String
  | [] => none
  | k :: ks =>
      match lookup kvs k with
      | Json.str v => if pyStartsWith v "http" then some v else firstHttpKey kvs ks
      | _ => firstHttpKey kvs ks

/-- Step 1 of `best_image`: first render image of the new display asset. -/
def step1 (render_images : Json) : Except PyErr (Option String) :=
  match render_images with
  | Json.arr (r0 :: _) => do
      let img ← Json.get r0 "image"
      match img with
      | Json.str s => if pyStartsWith s "http" then return some s else return none
      | _ => return none
  | _ => Except.ok none

/-- The display-asset image slots tried by steps 2 and 3 of `best_image`. -/
def daKeys : List String := ["OfferImage", "TileImage", "Background", "ItemShopTile"]

/-- Step 2 of `best_image` over the material-instance list. -/
def step2list : List Json → Except PyErr (Option String)
  | [] => Except.ok none
  | mi :: rest => do
      let imgs := pyOr (← Json.get mi "images") (Json.obj [])
      match imgs with
      | Json.obj kvs =>
        match firstHttpKey kvs daKeys with
        | some v => return some v
        | none => step2list rest
      | _ => step2list rest

/-- Step 2 of `best_image`: named slots of the material instances. -/
def step2 (mi_list : Json) : Except PyErr (Option String) :=
  match mi_list with
  | Json.arr mis => step2list mis
  | _ => Except.ok none

/-- Step 3 of `best_image`: named slots of the legacy display asset. -/
def step3 (da : Json) : Option String :=
  match da with
  | Json.obj kvs =>
      match pyOr (lookup kvs "images") (Json.obj []) with
      | Json.obj kvs2 => firstHttpKey kvs2 daKeys
      | _ => none
  | _ => none

/-- Step 4 of `best_image`: named slots (`featured`, `icon`, `smallIcon`)
of the first nested item under each of the given entry keys. -/
def step4 (entry : Json) : List String → Except PyErr (Option String)
  | [] => Except.ok none
  | k :: ks => do
      let arr := pyOr (← Json.get entry k) (Json.arr [])
      match arr with
      | Json.arr (a0 :: _) => do
          let images := pyOr (← Json.get a0 "images") (Json.obj [])
          match images with
          | Json.obj kvs =>
            match firstHttpKey kvs ["featured", "icon", "smallIcon"] with
            | some v => return some v
            | none => step4 entry ks
          | _ => step4 entry ks
      | _ => step4 entry ks

/-- Steps 1-4 of `best_image`, in source order, returning the first image
found (`none` when all four steps fall through). -/
def steps14 (entry : Json) : Except PyErr (Option String) := do
  let nda := pyOr (← Json.get entry "newDisplayAsset") (Json.obj [])
  let render_images := pyOr (← Json.get nda "renderImages") (Json.arr [])
  match ← step1 render_images with
  | some v => return some v
  | none =>
    let mi_list := pyOr (← Json.get nda "materialInstances") (Json.arr [])
    match ← step2 mi_list with
    | some v => return some v
    | none =>
      let da := pyOr (← Json.get entry "displayAsset") (Json.obj [])
      match step3 da with
      | some v => return some v
      | none =>
        match ← step4 entry ["brItems", "items"] with
        | some v => return some v
        | none => return none

/-- `best_image` from `app.py`: the ordered fallback chain, then the
whole-document scan. -/
def best_image (entry : Json) : Except PyErr String := do
  match ← steps14 entry with
  | some v => return v
  | none => return scanFallback entry

/-- One parsed display record (the dict appended to `out` by
`parse_shop_items`); loosely-typed fields stay `Json`. -/
structure ShopRecord where
  sectionName : Json
  offer_id : String
  name : Json
  price : Json
  rarity : Json
  type : Json
  description : Json
  image : String

/-- The offer identifier of an entry:
`str(e.get("offerId") or e.get("id") or "").strip()` with Python's
short-circuit `or`. -/
def offerIdOf (e : Json) : Except PyErr String := do
  let a ← Json.get e "offerId"
  let v ← (if truthy a then pure a else do
    let b ← Json.get e "id"
    pure (pyOr b (Json.str "")))
  return pyStrip (pyStr v)

/-- The two lines of `parse_shop_items` selecting the first nested item:
`items = e.get("items") or []` and
`first = items[0] if isinstance(items, list) and items else {}`. -/
def firstItem (e : Json) : Except PyErr Json := do
  let itemsJ := pyOr (← Json.get e "items") (Json.arr [])
  match itemsJ with
  | Json.arr (x :: _) => return x
  | _ => return Json.obj []

/-- The loop body of `parse_shop_items` for one entry: `none` when the
entry is skipped for lack of a non-blank identifier. -/
def parseEntry (e : Json) : Except PyErr (Option ShopRecord) := do
  let offer_id ← offerIdOf e
  if offer_id = "" then return none
  else
    let price ← Json.get e "finalPrice"
    let sectionName := pyOr (← Json.get (pyOr (← Json.get e "section") (Json.obj [])) "name")
      (Json.str "Shop")
    let first ← firstItem e
    let n0 ← Json.get first "name"
    let name ← (if truthy n0 then pure n0 else do
      let dn ← Json.get e "devName"
      pure (pyOr dn (Json.str "Unknown Item")))
    let rarity := pyOr (← Json.get (pyOr (← Json.get first "rarity") (Json.obj [])) "value")
      (Json.str "")
    let itype := pyOr (← Json.get (pyOr (← Json.get first "type") (Json.obj [])) "value")
      (Json.str "")
    let description := pyOr (← Json.get first "description") (Json.str "")
    let image ← best_image e
    return some {
      sectionName := sectionName,
      offer_id := offer_id,
      name := name,
      price := price,
      rarity := rarity,
      type := itype,
      description := description,
      image := image
    }

/-- The entry loop of `parse_shop_items`. -/
def processEntries : List Json → Except PyErr (List ShopRecord)
  | [] => Except.ok []
  | e :: rest => do
      match ← parseEntry e with
      | none => processEntries rest
      | some r => do
          let out ← processEntries rest
          return r :: out

/-- `parse_shop_items` from `app.py`.  Iterating a truthy non-list value
for `entries` raises in Python (dict keys and string characters are
non-dicts whose `.get` raises `AttributeError`; numbers and booleans are
not iterable), modelled by the corresponding errors. -/
def parse_shop_items (shop_json : Json) : Except PyErr (List ShopRecord) := do
  let sd ← Json.get (pyOr shop_json (Json.obj [])) "data"
  let shop_data := pyOr sd (Json.obj [])
  let ent ← Json.get shop_data "entries"
  match pyOr ent (Json.arr []) with
  | Json.arr xs => processEntries xs
  | Json.obj _ => Except.error PyErr.attributeError
  | Json.str _ => Except.error PyErr.attributeError
  | _ => Except.error PyErr.typeError

/-- One `ShopCache` row: UTC-naive fetch instant and payload (the
`json.dumps`/`json.loads` round trip is the identity on this model). -/
structure CacheRow where
  fetched_at : Int
  raw_json : Json

/-- `ShopCache.query.order_by(ShopCache.fetched_at.desc()).first()`:
a row of maximal `fetched_at` (the earliest such on ties). -/
def latestCache : List CacheRow → Option CacheRow
  | [] => none
  | r :: rs =>
      match latestCache rs with
      | none => some r
      | some m => if m.fetched_at ≤ r.fetched_at then some r else some m

/-- Outcome of one `get_shop_data` invocation: the returned payload or the
propagated exception, the cache table afterwards, and how many upstream
HTTP requests were issued. -/
structure GetShopResult where
  result : Except String Json
  cache : List CacheRow
  fetchCount : Nat

/-- `get_shop_data` from `app.py`.  `now_tor` models `toronto_now()`,
`torToUtc` the `astimezone(UTC).replace(tzinfo=None)` conversion, `now_utc`
the `utc_now_naive()` reading at persist time, and `upstream` the outcome
of `requests.get(...)` + `raise_for_status()` + `.json()` (an `Except.error`
covers a network error, a non-success status, and a body that fails to
parse — all raise before any row is added). -/
def get_shop_data (now_tor : Int) (torToUtc : Int → Int) (now_utc : Int)
    (cache : List CacheRow) (upstream : Except String Json) : GetShopResult :=
  let boundary_utc_naive := torToUtc (last_8pm_boundary_toronto now_tor)
  match latestCache cache with
  | some c =>
      if boundary_utc_naive ≤ c.fetched_at then
        { result := Except.ok c.raw_json, cache := cache, fetchCount := 0 }
      else
        match upstream with
        | Except.ok data =>
            { result := Except.ok data,
              cache := cache ++ [{ fetched_at := now_utc, raw_json := data }],
              fetchCount := 1 }
        | Except.error msg =>
            { result := Except.error msg, cache := cache, fetchCount := 1 }
  | none =>
      match upstream with
      | Except.ok data =>
          { result := Except.ok data,
            cache := cache ++ [{ fetched_at := now_utc, raw_json := data }],
            fetchCount := 1 }
      | Except.error msg =>
          { result := Except.error msg, cache := cache, fetchCount := 1 }

/-- One `ShopItem` row (the persisted per-day item table). -/
structure DatedRow where
  shop_date : Int
  item : ShopRecord

/-- The field assignments performed by `save_shop_items_to_db` on a found
or freshly created row (key columns `shop_date`, `offer_id` untouched). -/
def setFields (it : ShopRecord) (r : DatedRow) : DatedRow :=
  { r with item := { r.item with
      sectionName := it.sectionName,
      name := pyOr it.name (Json.str "Unknown Item"),
      price := it.price,
      rarity := it.rarity,
      type := it.type,
      description := it.description,
      image := it.image } }

/-- Update the first row matching `(sd, oid)` with the item's fields. -/
def updFirst (sd : Int) (oid : String) (it : ShopRecord) : List DatedRow → List DatedRow
  | [] => []
  | r :: rs =>
      if r.shop_date == sd && r.item.offer_id == oid then setFields it r :: rs
      else r :: updFirst sd oid it rs

/-- The loop body of `save_shop_items_to_db`: skip blank ids, update the
existing `(shop_date, offer_id)` row or append a new one. -/
def upsertItem (sd : Int) (tbl : List DatedRow) (it : ShopRecord) : List DatedRow :=
  let oid := pyStrip it.offer_id
  if oid = "" then tbl
  else if tbl.any (fun r => r.shop_date == sd && r.item.offer_id == oid) then
    updFirst sd oid it tbl
  else
    tbl ++ [setFields it { shop_date := sd, item := {
      sectionName := Json.null, offer_id := oid, name := Json.null,
      price := Json.null, rarity := Json.null, type := Json.null,
      description := Json.null, image := "" } }]

/-- `save_shop_items_to_db` from `app.py`. -/
def save_shop_items_to_db (items : List ShopRecord) (sd : Int)
    (tbl : List DatedRow) : List DatedRow :=
  items.foldl (upsertItem sd) tbl

/-- An exception escaping the `try` blocks of the `shop` view: an upstream
HTTP failure from `get_shop_data` or a parsing error. -/
inductive ShopErr where
  | http (msg : String)
  | py (e : PyErr)

/-- The `str(ex)` text interpolated into the flash message. -/
def errText : ShopErr → String
  | ShopErr.http msg => msg
  | ShopErr.py PyErr.attributeError => "AttributeError"
  | ShopErr.py PyErr.typeError => "TypeError"

/-- The body of both `try` blocks of the `shop` view up to the point where
parsed items are available: fetch through the cache policy, then parse.
Returns the parsed records or the caught exception, together with the
cache table afterwards and the number of upstream requests. -/
def fetchParse (now_tor : Int) (torToUtc : Int → Int) (now_utc : Int)
    (cache : List CacheRow) (upstream : Except String Json) :
    Except ShopErr (List ShopRecord) × List CacheRow × Nat :=
  let g := get_shop_data now_tor torToUtc now_utc cache upstream
  match g.result with
  | Except.error m => (Except.error (ShopErr.http m), g.cache, g.fetchCount)
  | Except.ok data =>
      match parse_shop_items data with
      | Except.error pe => (Except.error (ShopErr.py pe), g.cache, g.fetchCount)
      | Except.ok items => (Except.ok items, g.cache, g.fetchCount)

/-- What one rendering of the catalog view observes and leaves behind. -/
structure ShopView where
  rendered : List ShopRecord
  flashes : List String
  itemsTbl : List DatedRow
  cache : List CacheRow
  fetchCount : Nat
  next_refresh : Int

/-- The `shop` view (route `/`) from `app.py`: render stored items for the
current shop date, with the image-repair pass when over a quarter of them
lack an image, or fetch/parse/persist when nothing is stored yet.
`missing > len(items_db) * 0.25` is exact float arithmetic for any
realistic table size and equals `4 * missing > len(items_db)`. -/
def shop (now_tor : Int) (torToUtc : Int → Int) (now_utc : Int)
    (itemsTbl : List DatedRow) (cache : List CacheRow)
    (upstream : Except String Json) : ShopView :=
  let sd := shop_day now_tor
  let next_refresh := last_8pm_boundary_toronto now_tor + usPerDay
  let items_db := itemsTbl.filter (fun r => r.shop_date == sd)
  match items_db with
  | [] =>
      match fetchParse now_tor torToUtc now_utc cache upstream with
      | (Except.ok items, cache2, n) =>
          { rendered := items, flashes := [],
            itemsTbl := save_shop_items_to_db items sd itemsTbl,
            cache := cache2, fetchCount := n, next_refresh := next_refresh }
      | (Except.error e, cache2, n) =>
          { rendered := [],
            flashes := ["Could not load item shop: " ++ errText e],
            itemsTbl := itemsTbl, cache := cache2, fetchCount := n,
            next_refresh := next_refresh }
  | _ :: _ =>
      let missing := (items_db.filter (fun r => !(truthy (Json.str r.item.image)))).length
      if 4 * missing > items_db.length then
        match fetchParse now_tor torToUtc now_utc cache upstream with
        | (Except.ok items, cache2, n) =>
            let tbl2 := save_shop_items_to_db items sd itemsTbl
            { rendered := (tbl2.filter (fun r => r.shop_date == sd)).map DatedRow.item,
              flashes := [], itemsTbl := tbl2, cache := cache2, fetchCount := n,
              next_refresh := next_refresh }
        | (Except.error e, cache2, n) =>
            { rendered := items_db.map DatedRow.item,
              flashes := ["Could not refresh images: " ++ errText e],
              itemsTbl := itemsTbl, cache := cache2, fetchCount := n,
              next_refresh := next_refresh }
      else
        { rendered := items_db.map DatedRow.item, flashes := [],
          itemsTbl := itemsTbl, cache := cache, fetchCount := 0,
          next_refresh := next_refresh }

/-- One `WishlistItem` row. -/
structure WishRow where
  user_id : Nat
  offer_id : String
  name : Json
  price : Json
  rarity : Json
  image : Json

/-- An HTTP JSON response of the toggle endpoint. -/
structure HttpResp where
  status : Nat
  body : Json

/-- `WishlistItem.query.filter_by(user_id=..., offer_id=...).first()`. -/
def findWish (uid : Nat) (oid : String) : List WishRow → Option WishRow
  | [] => none
  | w :: ws =>
      if w.user_id == uid && w.offer_id == oid then some w else findWish uid oid ws

/-- `db.session.delete(existing)`: remove the row `first()` found. -/
def eraseWish (uid : Nat) (oid : String) : List WishRow → List WishRow
  | [] => []
  | w :: ws =>
      if w.user_id == uid && w.offer_id == oid then ws else w :: eraseWish uid oid ws

/-- Whether the authenticated account has the offer in its wishlist. -/
def inWishlist (uid : Nat) (oid : String) (tbl : List WishRow) : Bool :=
  (findWish uid oid tbl).isSome

/-- The offer id taken from the request body:
`str(payload.get("offer_id") or "").strip()` where the body itself is
`request.get_json(force=True) or {}`. -/
def oidOfPayload (payload : Json) : Except PyErr String := do
  let p := pyOr payload (Json.obj [])
  let o ← Json.get p "offer_id"
  return pyStrip (pyStr (pyOr o (Json.str "")))

/-- The JSON body `{"in_wishlist": b}`. -/
def wishBody (b : Bool) : Json := Json.obj [("in_wishlist", Json.bool b)]

/-- `toggle_wishlist` (route `POST /api/wishlist/toggle`) from `app.py`,
for an authenticated account `uid`. -/
def toggle_wishlist (uid : Nat) (payload : Json) (tbl : List WishRow) :
    Except PyErr (HttpResp × List WishRow) := do
  let p := pyOr payload (Json.obj [])
  let offer_id ← oidOfPayload payload
  if offer_id = "" then
    return ({ status := 400, body := Json.obj [("error", Json.str "Missing offer_id")] }, tbl)
  else
    match findWish uid offer_id tbl with
    | some _ =>
        return ({ status := 200, body := wishBody false }, eraseWish uid offer_id tbl)
    | none => do
        let n ← Json.get p "name"
        let pr ← Json.get p "price"
        let ra ← Json.get p "rarity"
        let im ← Json.get p "image"
        return ({ status := 200, body := wishBody true },
          tbl ++ [{ user_id := uid, offer_id := offer_id,
                    name := pyOr n (Json.str "Unknown Item"),
                    price := pr, rarity := ra, image := im }])

/-- One `User` row (primary key left implicit; usernames are unique). -/
structure UserRow where
  username : String
  password_hash : String

/-- Observable outcome of a registration `POST`. -/
inductive RegResult where
  | rejected (msg : String)
  | success

/-- `register` (route `POST /register`) from `app.py`, for an
unauthenticated visitor.  `hashF` models
`generate_password_hash(..., method="pbkdf2:sha256", salt_length=16)`.
Returns the outcome, the user table afterwards, and the session login
(`login_user`), `none` when no session is established. -/
def register (hashF : String → String) (username_raw password : String)
    (users : List UserRow) : RegResult × List UserRow × Option String :=
  let username := pyStrip username_raw
  if username.length < 3 then
    (RegResult.rejected "Username must be at least 3 characters.", users, none)
  else if password.length < 6 then
    (RegResult.rejected "Password must be at least 6 characters.", users, none)
  else if (users.any fun u => u.username == username) then
    (RegResult.rejected "That username is taken.", users, none)
  else
    (RegResult.success, users ++ [{ username := username, password_hash := hashF password }],
      some username)

/-- Observable outcome of a login `POST`: an established session, or a
flashed message plus the redirect target. -/
inductive LoginResult where
  | ok (username : String)
  | fail (flashMsg : String) (redirectTo : String)

/-- `User.query.filter_by(username=...).first()`. -/
def findUser (username : String) : List UserRow → Option UserRow
  | [] => none
  | u :: us => if u.username == username then some u else findUser username us

/-- `login` (route `POST /login`) from `app.py`, for an unauthenticated
visitor.  `checkF` models `check_password_hash(stored_hash, password)`. -/
def login (checkF : String → String → Bool) (username_raw password : String)
    (users : List UserRow) : LoginResult :=
  let username := pyStrip username_raw
  match findUser username users with
  | none => LoginResult.fail "Invalid username or password." "login"
  | some u =>
      if checkF u.password_hash password then LoginResult.ok u.username
      else LoginResult.fail "Invalid username or password." "login"

/-- Python `s.endswith(p)` (used only by spec-side definitions). -/
def pyEndsWith (s p : String) : Bool := strStarts p.toList.reverse s.toList.reverse

/-- Spec-side candidate filter, following the spec's words: a string that
"starts with an HTTP scheme, ends with a known image extension". -/
def specLooksLikeImageUrl (x : String) : Bool :=
  pyStartsWith x "http" && (imgExts.any fun e => pyEndsWith (pyLower x) e)

/-- Spec-side scan, following the spec's words: every string in the offer
document that looks like an image URL in the spec's sense. -/
def specScanCandidates (j : Json) : List String :=
  (strings j).filter specLooksLikeImageUrl

/-- Spec-side offer identifier of a dict entry: the first truthy of the
declared offer id and item id fields, as a string, trimmed. -/
def specOfferId (kvs : List (String × Json)) : String :=
  pyStrip (pyStr (pyOr (lookup kvs "offerId") (pyOr (lookup kvs "id") (Json.str ""))))

/-- Spec-side "first nested item in the offer" of a dict entry (an empty
dict when the offer has no item list). -/
def specFirstItem (kvs : List (String × Json)) : Json :=
  match pyOr (lookup kvs "items") (Json.arr []) with
  | Json.arr (x :: _) => x
  | _ => Json.obj []

/-- Spec-side display name (amended wording): the first nested item's name,
falling back to the entry-level `devName` and then `"Unknown Item"`. -/
def specName (kvs : List (String × Json)) : Json :=
  pyOr (jget (specFirstItem kvs) "name")
    (pyOr (lookup kvs "devName") (Json.str "Unknown Item"))

/-- Spec-side section label: the nested section-name field, defaulting to
`"Shop"`. -/
def specSection (kvs : List (String × Json)) : Json :=
  pyOr (jget (pyOr (lookup kvs "section") (Json.obj [])) "name") (Json.str "Shop")

/-- Spec-side rarity: the first nested item's rarity value, defaulting to
the empty string. -/
def specRarity (kvs : List (String × Json)) : Json :=
  pyOr (jget (pyOr (jget (specFirstItem kvs) "rarity") (Json.obj [])) "value") (Json.str "")

/-- Spec-side type: the first nested item's type value, defaulting to the
empty string. -/
def specType (kvs : List (String × Json)) : Json :=
  pyOr (jget (pyOr (jget (specFirstItem kvs) "type") (Json.obj [])) "value") (Json.str "")

/-- Spec-side description: the first nested item's description, defaulting
to the empty string. -/
def specDescription (kvs : List (String × Json)) : Json :=
  pyOr (jget (specFirstItem kvs) "description") (Json.str "")

/-- Number of wishlist rows with the given key (the unique-constraint
`uq_user_offer` makes this at most 1 in any reachable table). -/
def countKey (uid : Nat) (oid : String) (tbl : List WishRow) : Nat :=
  (tbl.filter fun w => w.user_id == uid && w.offer_id == oid).length

/-- The wishlist table after a toggle (unchanged when the toggle raised). -/
def toggleState (uid : Nat) (payload : Json) (tbl : List WishRow) : List WishRow :=
  match toggle_wishlist uid payload tbl with
  | Except.ok (_, t) => t
  | Except.error _ => tbl

/-- The row the toggle endpoint creates from the request body fields of a
dict payload `kvs`. -/
def mkWishRow (uid : Nat) (oid : String) (kvs : List (String × Json)) : WishRow :=
  { user_id := uid, offer_id := oid,
    name := pyOr (lookup kvs "name") (Json.str "Unknown Item"),
    price := lookup kvs "price", rarity := lookup kvs "rarity",
    image := lookup kvs "image" }

/-- Offer entry whose only image-like string is an HTTP URL that contains
`.png` but does not end with it (query string after the extension). -/
def entryQueryUrl : Json :=
  Json.obj [("offerId", Json.str "o1"),
    ("stuff", Json.arr [Json.arr [Json.str "http://cdn.example/img.png?v=2"]])]

/-- Offer entry with no recognized image field and one HTTP image URL
buried in a nested list. -/
def entryNestedUrl : Json :=
  Json.obj [("offerId", Json.str "o2"),
    ("layers", Json.arr [Json.obj [("deep", Json.arr [Json.str "http://cdn.example/tile.png"])]])]

/-- Entry whose first nested item has no name but whose entry carries a
`devName`. -/
def entryDevName : Json :=
  Json.obj [("offerId", Json.str "oid-a"), ("devName", Json.str "DevThing"),
    ("items", Json.arr [Json.obj [("name", Json.null)]])]

/-- Payload wrapping `entryDevName`. -/
def payloadDevName : Json :=
  Json.obj [("data", Json.obj [("entries", Json.arr [entryDevName])])]

/-- Entry with a truthy whitespace-only offer id masking a non-blank item
id. -/
def entryBlankOffer : Json :=
  Json.obj [("offerId", Json.str " "), ("id", Json.str "real-id")]

/-- Payload wrapping `entryBlankOffer`. -/
def payloadBlankOffer : Json :=
  Json.obj [("data", Json.obj [("entries", Json.arr [entryBlankOffer])])]

/-- The record `parse_shop_items` produces for `entryDevName`. -/
def recDevName : ShopRecord :=
  { sectionName := Json.str "Shop", offer_id := "oid-a", name := Json.str "DevThing",
    price := Json.null, rarity := Json.str "", type := Json.str "",
    description := Json.str "", image := "" }

/-- A stored shop item with an empty image (shop date is the one for
`now_tor = 0`, namely day `-1`). -/
def recNoImage : ShopRecord :=
  { sectionName := Json.null, offer_id := "x", name := Json.null,
    price := Json.null, rarity := Json.null, type := Json.null,
    description := Json.null, image := "" }

/-- A `ShopItem` row holding `recNoImage` under shop date `-1`. -/
def rowNoImage : DatedRow := { shop_date := -1, item := recNoImage }

/-- A stored shop item with a non-empty image. -/
def recImg : ShopRecord :=
  { sectionName := Json.null, offer_id := "y", name := Json.null,
    price := Json.null, rarity := Json.null, type := Json.null,
    description := Json.null, image := "http://x/i.png" }

/-- A `ShopItem` row holding `recImg` under shop date `-1`. -/
def rowImg : DatedRow := { shop_date := -1, item := recImg }

/-- Toggle request body with a well-formed offer id. -/
def payloadToggle : Json :=
  Json.obj [("offer_id", Json.str "of1"), ("name", Json.str "N")]

/-- Toggle request body whose offer id is blank after trimming. -/
def payloadBlankToggle : Json := Json.obj [("offer_id", Json.str "  ")]

/-- Entry used by the C6 witness. -/
def entryHat : Json :=
  Json.obj [("offerId", Json.str " w6 "),
    ("items", Json.arr [Json.obj [("name", Json.str "Hat")]])]

/-- The record `parse_shop_items` produces for `entryHat`. -/
def recHat : ShopRecord :=
  { sectionName := Json.str "Shop", offer_id := "w6", name := Json.str "Hat",
    price := Json.null, rarity := Json.str "", type := Json.str "",
    description := Json.str "", image := "" }

theorem latestCache_cons_ne_none (r : CacheRow) (rs : List CacheRow) :
    latestCache (r :: rs) ≠ none := by
  cases h : latestCache rs with
  | none => simp [latestCache, h]
  | some m => simp [latestCache, h]; split <;> simp

theorem latestCache_none_eq {l : List CacheRow} (h : latestCache l = none) : l = [] := by
  cases l with
  | nil => rfl
  | cons r rs => exact absurd h (latestCache_cons_ne_none r rs)

theorem latestCache_mem : ∀ {l : List CacheRow} {m : CacheRow},
    latestCache l = some m → m ∈ l := by
  intro l
  induction l with
  | nil => intro m h; simp [latestCache] at h
  | cons r rs ih =>
      intro m h
      simp only [latestCache] at h
      cases hrs : latestCache rs with
      | none =>
          simp only [hrs] at h
          injection h with h'
          rw [← h']
          exact List.mem_cons_self r rs
      | some mm =>
          simp only [hrs] at h
          by_cases hle : mm.fetched_at ≤ r.fetched_at
          · rw [if_pos hle] at h
            injection h with h'
            rw [← h']
            exact List.mem_cons_self r rs
          · rw [if_neg hle] at h
            injection h with h'
            rw [← h']
            exact List.mem_cons_of_mem r (ih hrs)

theorem latestCache_max : ∀ {l : List CacheRow} {m : CacheRow},
    latestCache l = some m → ∀ c ∈ l, c.fetched_at ≤ m.fetched_at := by
  intro l
  induction l with
  | nil => intro m h; simp [latestCache] at h
  | cons r rs ih =>
      intro m h c hc
      simp only [latestCache] at h
      cases hrs : latestCache rs with
      | none =>
          have hnil := latestCache_none_eq hrs
          subst hnil
          simp only [hrs] at h
          injection h with h'
          subst h'
          have hcr : c = r := by simpa using hc
          rw [hcr]
      | some mm =>
          simp only [hrs] at h
          by_cases hle : mm.fetched_at ≤ r.fetched_at
          · rw [if_pos hle] at h
            injection h with h'
            subst h'
            rcases List.mem_cons.mp hc with hcr | hcrs
            · rw [hcr]
            · exact le_trans (ih hrs c hcrs) hle
          · rw [if_neg hle] at h
            injection h with h'
            subst h'
            rcases List.mem_cons.mp hc with hcr | hcrs
            · rw [hcr]; exact le_of_not_le hle
            · exact ih hrs c hcrs

theorem get_shop_data_fresh (now_tor now_utc : Int) (torToUtc : Int → Int)
    (cache : List CacheRow) (up : Except String Json) (m : CacheRow)
    (hm : latestCache cache = some m)
    (hb : torToUtc (last_8pm_boundary_toronto now_tor) ≤ m.fetched_at) :
    get_shop_data now_tor torToUtc now_utc cache up =
      { result := Except.ok m.raw_json, cache := cache, fetchCount := 0 } := by
  simp [get_shop_data, hm, hb]

theorem get_shop_data_stale_ok (now_tor now_utc : Int) (torToUtc : Int → Int)
    (cache : List CacheRow) (up : Except String Json)
    (hstale : ∀ c ∈ cache, c.fetched_at < torToUtc (last_8pm_boundary_toronto now_tor))
    (d : Json) (hup : up = Except.ok d) :
    get_shop_data now_tor torToUtc now_utc cache up =
      { result := Except.ok d,
        cache := cache ++ [{ fetched_at := now_utc, raw_json := d }],
        fetchCount := 1 } := by
  cases hm : latestCache cache with
  | none => simp [get_shop_data, hm, hup]
  | some m =>
      have := hstale m (latestCache_mem hm)
      simp [get_shop_data, hm, hup, not_le.mpr this]

theorem get_shop_data_stale_err (now_tor now_utc : Int) (torToUtc : Int → Int)
    (cache : List CacheRow) (up : Except String Json)
    (hstale : ∀ c ∈ cache, c.fetched_at < torToUtc (last_8pm_boundary_toronto now_tor))
    (msg : String) (hup : up = Except.error msg) :
    get_shop_data now_tor torToUtc now_utc cache up =
      { result := Except.error msg, cache := cache, fetchCount := 1 } := by
  cases hm : latestCache cache with
  | none => simp [get_shop_data, hm, hup]
  | some m =>
      have := hstale m (latestCache_mem hm)
      simp [get_shop_data, hm, hup, not_le.mpr this]

theorem fetchParse_count (now_tor now_utc : Int) (torToUtc : Int → Int)
    (cache : List CacheRow) (up : Except String Json) :
    (fetchParse now_tor torToUtc now_utc cache up).2.2 =
      (get_shop_data now_tor torToUtc now_utc cache up).fetchCount := by
  simp only [fetchParse]
  cases h : (get_shop_data now_tor torToUtc now_utc cache up).result with
  | error m => simp [h]
  | ok data =>
      simp only [h]
      cases hp : parse_shop_items data <;> simp [hp]

/-- Claim C1: `get_shop_data` returns the latest cached payload with zero
upstream calls when some cache row's fetch timestamp reaches the current
20:00 boundary (converted to UTC-naive by `torToUtc`); otherwise (stale or
absent cache) it performs exactly one upstream fetch, persists one new
cache row stamped with the current fetch timestamp, and returns the
fetched payload. -/
theorem get_shop_data_cache_policy (now_tor now_utc : Int) (torToUtc : Int → Int)
    (cache : List CacheRow) (up : Except String Json) :
    ((∃ c, c ∈ cache ∧ torToUtc (last_8pm_boundary_toronto now_tor) ≤ c.fetched_at) →
      ∃ m, latestCache cache = some m ∧
        torToUtc (last_8pm_boundary_toronto now_tor) ≤ m.fetched_at ∧
        get_shop_data now_tor torToUtc now_utc cache up =
          { result := Except.ok m.raw_json, cache := cache, fetchCount := 0 }) ∧
    ((∀ c, c ∈ cache → c.fetched_at < torToUtc (last_8pm_boundary_toronto now_tor)) →
      ∀ d, up = Except.ok d →
      get_shop_data now_tor torToUtc now_utc cache up =
        { result := Except.ok d,
          cache := cache ++ [{ fetched_at := now_utc, raw_json := d }],
          fetchCount := 1 }) := by
  constructor
  · rintro ⟨c, hc, hb⟩
    cases hm : latestCache cache with
    | none =>
        rw [latestCache_none_eq hm] at hc
        cases hc
    | some m =>
        have hmx := latestCache_max hm c hc
        exact ⟨m, rfl, le_trans hb hmx,
          get_shop_data_fresh now_tor now_utc torToUtc cache up m hm (le_trans hb hmx)⟩
  · intro hstale d hup
    exact get_shop_data_stale_ok now_tor now_utc torToUtc cache up hstale d hup

theorem get_shop_data_cache_policy_witness :
    (get_shop_data 0 (fun _ => 0) 500 [{ fetched_at := 100, raw_json := Json.null }]
      (Except.error "broken")).fetchCount = 0 ∧
    get_shop_data 0 (fun _ => 200) 500 [{ fetched_at := 100, raw_json := Json.null }]
      (Except.ok (Json.str "pay")) =
      { result := Except.ok (Json.str "pay"),
        cache := [{ fetched_at := 100, raw_json := Json.null },
                  { fetched_at := 500, raw_json := Json.str "pay" }],
        fetchCount := 1 } := by
  constructor
  · obtain ⟨m, hm, hb, heq⟩ :=
      (get_shop_data_cache_policy 0 500 (fun _ => (0 : Int))
        [{ fetched_at := 100, raw_json := Json.null }] (Except.error "broken")).1
        ⟨{ fetched_at := 100, raw_json := Json.null }, by simp, by decide⟩
    rw [heq]
  · exact (get_shop_data_cache_policy 0 500 (fun _ => (200 : Int))
      [{ fetched_at := 100, raw_json := Json.null }] (Except.ok (Json.str "pay"))).2
      (by intro c hc; simp at hc; rw [hc]; decide) (Json.str "pay") rfl

/-- Claim C2: `last_8pm_boundary_toronto` computes the most recent 20:00
wall-clock instant that is at most `t`: it is a 20:00 instant, is at most
`t`, dominates every 20:00 instant that is at most `t`, equals today's
20:00 exactly when `t` has reached it and yesterday's 20:00 (exactly one
day earlier) otherwise, and is constant across all instants of one day
lying on the same side of that day's 20:00. -/
theorem last_8pm_boundary_correct (t : Int) :
    (todayBoundary t ≤ t → last_8pm_boundary_toronto t = todayBoundary t) ∧
    (t < todayBoundary t → last_8pm_boundary_toronto t = todayBoundary t - usPerDay) ∧
    (∃ k : Int, last_8pm_boundary_toronto t = k * usPerDay + us8pm) ∧
    last_8pm_boundary_toronto t ≤ t ∧
    (∀ B k : Int, B = k * usPerDay + us8pm → B ≤ t → B ≤ last_8pm_boundary_toronto t) ∧
    (∀ t2 : Int, t / usPerDay = t2 / usPerDay →
      ((todayBoundary t ≤ t) ↔ (todayBoundary t2 ≤ t2)) →
      last_8pm_boundary_toronto t = last_8pm_boundary_toronto t2) := by
  refine ⟨?_, ?_, ?_, ?_, ?_, ?_⟩
  · intro h; simp [last_8pm_boundary_toronto, h]
  · intro h; simp [last_8pm_boundary_toronto, not_le.mpr h]
  · unfold last_8pm_boundary_toronto todayBoundary usPerDay us8pm
    split
    · exact ⟨t / 86400000000, by ring⟩
    · exact ⟨t / 86400000000 - 1, by ring⟩
  · unfold last_8pm_boundary_toronto todayBoundary usPerDay us8pm
    split <;> omega
  · intro B k hB hle
    simp only [last_8pm_boundary_toronto, todayBoundary, usPerDay, us8pm] at *
    split <;> omega
  · intro t2 hdiv hiff
    simp only [last_8pm_boundary_toronto, todayBoundary, usPerDay, us8pm] at *
    rcases Classical.em (86400000000 * (t / 86400000000) + 72000000000 ≤ t) with h1 | h1
    · rw [if_pos h1, if_pos (hiff.mp h1)]
      omega
    · rw [if_neg h1, if_neg fun hq => h1 (hiff.mpr hq)]
      omega

theorem last_8pm_boundary_correct_witness :
    last_8pm_boundary_toronto 73000000000 = 72000000000 ∧
    last_8pm_boundary_toronto 71000000000 = -14400000000 := by
  constructor
  · have h := (last_8pm_boundary_correct 73000000000).1 (by decide)
    rw [h]; decide
  · have h := (last_8pm_boundary_correct 71000000000).2.1 (by decide)
    rw [h]; decide

theorem shop_upstream_failure_nonempty_catalog_cx :
    (shop 0 (fun t => t) 0 [rowNoImage] [] (Except.error "boom")).fetchCount = 1 ∧
    (shop 0 (fun t => t) 0 [rowNoImage] [] (Except.error "boom")).rendered = [recNoImage] ∧
    (shop 0 (fun t => t) 0 [rowNoImage] [] (Except.error "boom")).flashes =
      ["Could not refresh images: boom"] ∧
    [recNoImage] ≠ ([] : List ShopRecord) :=
  ⟨rfl, rfl, rfl, by simp⟩

/-- Claim C5 (amended): when the upstream fetch fails on a stale or absent
cache, `get_shop_data` propagates the failure with exactly one fetch
attempt (no retry, no stale-data fallback) and persists nothing; the
catalog view flashes the failure, and when no items are stored for the
current shop date it renders an empty catalog (with stored items present
the stored items are rendered instead — see the image-repair pass). -/
theorem upstream_failure_handling (now_tor now_utc : Int) (torToUtc : Int → Int)
    (itemsTbl : List DatedRow) (cache : List CacheRow) (msg : String)
    (hstale : ∀ c ∈ cache, c.fetched_at < torToUtc (last_8pm_boundary_toronto now_tor)) :
    get_shop_data now_tor torToUtc now_utc cache (Except.error msg) =
      { result := Except.error msg, cache := cache, fetchCount := 1 } ∧
    (itemsTbl.filter (fun r => r.shop_date == shop_day now_tor) = [] →
      shop now_tor torToUtc now_utc itemsTbl cache (Except.error msg) =
        { rendered := [], flashes := ["Could not load item shop: " ++ msg],
          itemsTbl := itemsTbl, cache := cache, fetchCount := 1,
          next_refresh := last_8pm_boundary_toronto now_tor + usPerDay }) := by
  have hg := get_shop_data_stale_err now_tor now_utc torToUtc cache
    (Except.error msg) hstale msg rfl
  refine ⟨hg, ?_⟩
  intro hempty
  have hfp : fetchParse now_tor torToUtc now_utc cache (Except.error msg) =
      (Except.error (ShopErr.http msg), cache, 1) := by
    simp only [fetchParse, hg]
  simp [shop, hempty, hfp, errText]

theorem upstream_failure_handling_witness :
    shop 0 (fun t => t) 0 [] [] (Except.error "down") =
      { rendered := [], flashes := ["Could not load item shop: down"], itemsTbl := [],
        cache := [], fetchCount := 1, next_refresh := 72000000000 } := by
  have h := (upstream_failure_handling 0 0 (fun t => t) [] [] "down"
    (by intro c hc; cases hc)).2 rfl
  rw [h]
  rfl

/-- Claim C10: with stored items for the current shop date, the view
re-obtains the payload through the cache policy, re-parses and upserts
when more than a quarter of the stored items lack an image (an upstream
call happening only when the cache is also stale); with at most a quarter
missing it renders the stored items untouched; a caught exception during
the repair is flashed while the previously stored items are rendered. -/
theorem shop_image_repair (now_tor now_utc : Int) (torToUtc : Int → Int)
    (itemsTbl : List DatedRow) (cache : List CacheRow) (up : Except String Json)
    (hne : itemsTbl.filter (fun r => r.shop_date == shop_day now_tor) ≠ []) :
    (4 * ((itemsTbl.filter (fun r => r.shop_date == shop_day now_tor)).filter
        (fun r => !(truthy (Json.str r.item.image)))).length ≤
        (itemsTbl.filter (fun r => r.shop_date == shop_day now_tor)).length →
      shop now_tor torToUtc now_utc itemsTbl cache up =
        { rendered := (itemsTbl.filter
            (fun r => r.shop_date == shop_day now_tor)).map DatedRow.item,
          flashes := [], itemsTbl := itemsTbl, cache := cache, fetchCount := 0,
          next_refresh := last_8pm_boundary_toronto now_tor + usPerDay }) ∧
    (4 * ((itemsTbl.filter (fun r => r.shop_date == shop_day now_tor)).filter
        (fun r => !(truthy (Json.str r.item.image)))).length >
        (itemsTbl.filter (fun r => r.shop_date == shop_day now_tor)).length →
      (∀ items cache2 n,
        fetchParse now_tor torToUtc now_utc cache up = (Except.ok items, cache2, n) →
        shop now_tor torToUtc now_utc itemsTbl cache up =
          { rendered := ((save_shop_items_to_db items (shop_day now_tor) itemsTbl).filter
              (fun r => r.shop_date == shop_day now_tor)).map DatedRow.item,
            flashes := [],
            itemsTbl := save_shop_items_to_db items (shop_day now_tor) itemsTbl,
            cache := cache2, fetchCount := n,
            next_refresh := last_8pm_boundary_toronto now_tor + usPerDay }) ∧
      (∀ e cache2 n,
        fetchParse now_tor torToUtc now_utc cache up = (Except.error e, cache2, n) →
        shop now_tor torToUtc now_utc itemsTbl cache up =
          { rendered := (itemsTbl.filter
              (fun r => r.shop_date == shop_day now_tor)).map DatedRow.item,
            flashes := ["Could not refresh images: " ++ errText e],
            itemsTbl := itemsTbl, cache := cache2, fetchCount := n,
            next_refresh := last_8pm_boundary_toronto now_tor + usPerDay })) ∧
    ((∃ c, c ∈ cache ∧ torToUtc (last_8pm_boundary_toronto now_tor) ≤ c.fetched_at) →
      (fetchParse now_tor torToUtc now_utc cache up).2.2 = 0) := by
  refine ⟨?_, ?_, ?_⟩
  · intro hle
    cases hdb : itemsTbl.filter (fun r => r.shop_date == shop_day now_tor) with
    | nil => exact absurd hdb hne
    | cons a as =>
        rw [hdb] at hle
        simp only [shop, hdb]
        rw [if_neg (not_lt.mpr hle)]
  · intro hgt
    cases hdb : itemsTbl.filter (fun r => r.shop_date == shop_day now_tor) with
    | nil => exact absurd hdb hne
    | cons a as =>
        rw [hdb] at hgt
        constructor
        · intro items cache2 n hfp
          simp only [shop, hdb]
          rw [if_pos hgt, hfp]
        · intro e cache2 n hfp
          simp only [shop, hdb]
          rw [if_pos hgt, hfp]
  · rintro ⟨c, hc, hb⟩
    rw [fetchParse_count]
    cases hm : latestCache cache with
    | none => rw [latestCache_none_eq hm] at hc; cases hc
    | some m =>
        rw [get_shop_data_fresh now_tor now_utc torToUtc cache up m hm
          (le_trans hb (latestCache_max hm c hc))]

theorem shop_image_repair_witness :
    shop 0 (fun t => t) 7 [rowImg] [] (Except.error "ig") =
      { rendered := [recImg], flashes := [], itemsTbl := [rowImg], cache := [],
        fetchCount := 0, next_refresh := 72000000000 } := by
  have hne : List.filter (fun r => r.shop_date == shop_day 0) [rowImg] ≠ [] := by
    rw [show List.filter (fun r => r.shop_date == shop_day 0) [rowImg] = [rowImg] from rfl]
    simp
  have h := (shop_image_repair 0 7 (fun t => t) [rowImg] [] (Except.error "ig") hne).1
    (by decide)
  rw [h]
  rfl

/-- Claim C7: a toggle request whose offer id is missing or blank after
trimming fails with status 400 and a JSON error body, leaving the wishlist
table unchanged. -/
theorem toggle_wishlist_blank_id (uid : Nat) (payload : Json) (tbl : List WishRow)
    (h : oidOfPayload payload = Except.ok "") :
    toggle_wishlist uid payload tbl =
      Except.ok ({ status := 400, body := Json.obj [("error", Json.str "Missing offer_id")] },
        tbl) := by
  simp [toggle_wishlist, h, Bind.bind, Except.bind, pure, Except.pure]

theorem toggle_wishlist_blank_id_witness :
    toggle_wishlist 7 payloadBlankToggle [] =
      Except.ok ({ status := 400, body := Json.obj [("error", Json.str "Missing offer_id")] },
        ([] : List WishRow)) :=
  toggle_wishlist_blank_id 7 payloadBlankToggle [] rfl

/-- Claim C8: registration rejects a trimmed username shorter than 3
characters, a password shorter than 6 characters, and a taken username,
each without creating an account or session; otherwise it stores the
account with the hashed password and establishes a session. -/
theorem register_policy (hashF : String → String) (u p : String) (users : List UserRow) :
    ((pyStrip u).length < 3 →
      register hashF u p users =
        (RegResult.rejected "Username must be at least 3 characters.", users, none)) ∧
    (¬ (pyStrip u).length < 3 → p.length < 6 →
      register hashF u p users =
        (RegResult.rejected "Password must be at least 6 characters.", users, none)) ∧
    (¬ (pyStrip u).length < 3 → ¬ p.length < 6 →
      (users.any fun x => x.username == pyStrip u) = true →
      register hashF u p users = (RegResult.rejected "That username is taken.", users, none)) ∧
    (¬ (pyStrip u).length < 3 → ¬ p.length < 6 →
      (users.any fun x => x.username == pyStrip u) = false →
      register hashF u p users =
        (RegResult.success,
          users ++ [{ username := pyStrip u, password_hash := hashF p }],
          some (pyStrip u))) := by
  refine ⟨?_, ?_, ?_, ?_⟩
  · intro h1; simp [register, h1]
  · intro h1 h2; simp [register, h1, h2]
  · intro h1 h2 h3; simp [register, h1, h2, h3]
  · intro h1 h2 h3; simp [register, h1, h2, h3]

theorem register_policy_witness :
    register (fun s => s) "ab" "longenough" [] =
      (RegResult.rejected "Username must be at least 3 characters.", [], none) ∧
    register (fun s => s) "bob" "secret" [] =
      (RegResult.success, [{ username := "bob", password_hash := "secret" }], some "bob") := by
  constructor
  · exact (register_policy (fun s => s) "ab" "longenough" []).1 (by decide)
  · exact (register_policy (fun s => s) "bob" "secret" []).2.2.2
      (by decide) (by decide) (by decide)

/-- Claim C9: a login attempt with an existing username but failing
password check and a login attempt with an unknown username produce the
identical observable response: the same generic flash message and the same
redirect target. -/
theorem login_no_enumeration (checkF : String → String → Bool)
    (users1 users2 : List UserRow) (u1 p1 u2 p2 : String) (usr : UserRow)
    (h1 : findUser (pyStrip u1) users1 = some usr)
    (h2 : checkF usr.password_hash p1 = false)
    (h3 : findUser (pyStrip u2) users2 = none) :
    login checkF u1 p1 users1 = login checkF u2 p2 users2 ∧
    login checkF u1 p1 users1 = LoginResult.fail "Invalid username or password." "login" := by
  have e1 : login checkF u1 p1 users1 =
      LoginResult.fail "Invalid username or password." "login" := by
    simp [login, h1, h2]
  have e2 : login checkF u2 p2 users2 =
      LoginResult.fail "Invalid username or password." "login" := by
    simp [login, h3]
  exact ⟨e1.trans e2.symm, e1⟩

theorem login_no_enumeration_witness :
    login (fun _ _ => false) "alice" "wrong" [{ username := "alice", password_hash := "h" }] =
      login (fun _ _ => false) "mallory" "pw" [] :=
  (login_no_enumeration (fun _ _ => false) [{ username := "alice", password_hash := "h" }]
    [] "alice" "wrong" "mallory" "pw" { username := "alice", password_hash := "h" }
    rfl rfl rfl).1

theorem countKey_zero_find_none : ∀ {uid : Nat} {oid : String} {tbl : List WishRow},
    countKey uid oid tbl = 0 → findWish uid oid tbl = none := by
  intro uid oid tbl
  induction tbl with
  | nil => intro _; rfl
  | cons x xs ih =>
      intro h
      by_cases hc : (x.user_id == uid && x.offer_id == oid) = true
      · exfalso
        simp [countKey, List.filter_cons_of_pos, hc] at h
      · have hxs : countKey uid oid xs = 0 := by
          simpa [countKey, List.filter_cons_of_neg, hc] using h
        simp [findWish, hc, ih hxs]

theorem findWish_erase_of_uniq : ∀ {uid : Nat} {oid : String} {tbl : List WishRow},
    countKey uid oid tbl ≤ 1 → ∀ {w0 : WishRow}, findWish uid oid tbl = some w0 →
    findWish uid oid (eraseWish uid oid tbl) = none := by
  intro uid oid tbl
  induction tbl with
  | nil => intro _ w0 h; simp [findWish] at h
  | cons x xs ih =>
      intro huniq w0 h
      by_cases hc : (x.user_id == uid && x.offer_id == oid) = true
      · have hxs : countKey uid oid xs = 0 := by
          simp [countKey, List.filter_cons_of_pos, hc] at huniq
          simpa [countKey] using huniq
        simp [eraseWish, hc]
        exact countKey_zero_find_none hxs
      · have huniq2 : countKey uid oid xs ≤ 1 := by
          simpa [countKey, List.filter_cons_of_neg, hc] using huniq
        have h2 : findWish uid oid xs = some w0 := by
          simpa [findWish, hc] using h
        simp [eraseWish, hc, findWish]
        exact ih huniq2 h2

theorem findWish_append_one : ∀ {uid : Nat} {oid : String} {tbl : List WishRow}
    {w : WishRow}, findWish uid oid tbl = none →
    (w.user_id == uid && w.offer_id == oid) = true →
    findWish uid oid (tbl ++ [w]) = some w := by
  intro uid oid tbl
  induction tbl with
  | nil => intro w _ hw; simp [findWish, hw]
  | cons x xs ih =>
      intro w h hw
      by_cases hc : (x.user_id == uid && x.offer_id == oid) = true
      · simp [findWish, hc] at h
      · have h2 : findWish uid oid xs = none := by simpa [findWish, hc] using h
        simp [findWish, hc]
        exact ih h2 hw

theorem eraseWish_append_one : ∀ {uid : Nat} {oid : String} {tbl : List WishRow}
    {w : WishRow}, findWish uid oid tbl = none →
    (w.user_id == uid && w.offer_id == oid) = true →
    eraseWish uid oid (tbl ++ [w]) = tbl := by
  intro uid oid tbl
  induction tbl with
  | nil => intro w _ hw; simp [eraseWish, hw]
  | cons x xs ih =>
      intro w h hw
      by_cases hc : (x.user_id == uid && x.offer_id == oid) = true
      · simp [findWish, hc] at h
      · have h2 : findWish uid oid xs = none := by simpa [findWish, hc] using h
        simp [eraseWish, hc]
        exact ih h2 hw

theorem oidOfPayload_ok_obj : ∀ {payload : Json} {oid : String},
    oidOfPayload payload = Except.ok oid →
    ∃ kvs, pyOr payload (Json.obj []) = Json.obj kvs := by
  intro payload oid h
  cases hp : pyOr payload (Json.obj []) with
  | obj kvs => exact ⟨kvs, rfl⟩
  | null => simp [oidOfPayload, hp, Json.get, Bind.bind, Except.bind] at h
  | bool b => simp [oidOfPayload, hp, Json.get, Bind.bind, Except.bind] at h
  | num n => simp [oidOfPayload, hp, Json.get, Bind.bind, Except.bind] at h
  | str s => simp [oidOfPayload, hp, Json.get, Bind.bind, Except.bind] at h
  | arr xs => simp [oidOfPayload, hp, Json.get, Bind.bind, Except.bind] at h

/-- Claim C4: for an authenticated account and a non-blank offer id the
toggle is a presence involution keyed by `(uid, offer id)`: an existing
entry is deleted and absence reported, a missing entry is created and
presence reported, and toggling twice restores the original presence
(assuming the table respects the `(user_id, offer_id)` unique
constraint). -/
theorem toggle_wishlist_involution (uid : Nat) (payload : Json) (tbl : List WishRow)
    (oid : String) (hoid : oidOfPayload payload = Except.ok oid) (hne : oid ≠ "")
    (huniq : countKey uid oid tbl ≤ 1) :
    toggle_wishlist uid payload tbl =
      Except.ok ({ status := 200, body := wishBody (!inWishlist uid oid tbl) },
        toggleState uid payload tbl) ∧
    inWishlist uid oid (toggleState uid payload tbl) = !inWishlist uid oid tbl ∧
    toggle_wishlist uid payload (toggleState uid payload tbl) =
      Except.ok ({ status := 200, body := wishBody (inWishlist uid oid tbl) },
        toggleState uid payload (toggleState uid payload tbl)) ∧
    inWishlist uid oid (toggleState uid payload (toggleState uid payload tbl)) =
      inWishlist uid oid tbl := by
  obtain ⟨kvs, hobj⟩ := oidOfPayload_ok_obj hoid
  have hred : ∀ t : List WishRow, toggle_wishlist uid payload t =
      match findWish uid oid t with
      | some _ =>
          Except.ok ({ status := 200, body := wishBody false }, eraseWish uid oid t)
      | none =>
          Except.ok ({ status := 200, body := wishBody true },
            t ++ [mkWishRow uid oid kvs]) := by
    intro t
    simp only [toggle_wishlist, hobj, hoid, Json.get, Bind.bind, Except.bind]
    rw [if_neg hne]
    cases hf : findWish uid oid t <;> simp [pure, Except.pure, mkWishRow]
  have hwmatch : (((mkWishRow uid oid kvs).user_id == uid) &&
      ((mkWishRow uid oid kvs).offer_id == oid)) = true := by simp [mkWishRow]
  cases hf : findWish uid oid tbl with
  | some w0 =>
      have hpres : inWishlist uid oid tbl = true := by simp [inWishlist, hf]
      have ht1 : toggleState uid payload tbl = eraseWish uid oid tbl := by
        simp only [toggleState, hred tbl, hf]
      have hf1 : findWish uid oid (eraseWish uid oid tbl) = none :=
        findWish_erase_of_uniq huniq hf
      have hpres1 : inWishlist uid oid (eraseWish uid oid tbl) = false := by
        simp [inWishlist, hf1]
      have ht2 : toggleState uid payload (toggleState uid payload tbl) =
          eraseWish uid oid tbl ++ [mkWishRow uid oid kvs] := by
        rw [ht1]
        simp only [toggleState, hred (eraseWish uid oid tbl), hf1]
      refine ⟨?_, ?_, ?_, ?_⟩
      · rw [ht1, hred tbl, hf, hpres]; rfl
      · rw [ht1, hpres1, hpres]; rfl
      · rw [ht2, ht1, hred (eraseWish uid oid tbl), hf1, hpres]
      · rw [ht2, hpres]
        simp [inWishlist, findWish_append_one hf1 hwmatch]
  | none =>
      have hpres : inWishlist uid oid tbl = false := by simp [inWishlist, hf]
      have ht1 : toggleState uid payload tbl = tbl ++ [mkWishRow uid oid kvs] := by
        simp only [toggleState, hred tbl, hf]
      have hf1 := findWish_append_one hf hwmatch
      have hpres1 : inWishlist uid oid (toggleState uid payload tbl) = true := by
        rw [ht1]; simp [inWishlist, hf1]
      have ht2 : toggleState uid payload (toggleState uid payload tbl) = tbl := by
        rw [ht1]
        simp only [toggleState, hred (tbl ++ [mkWishRow uid oid kvs]), hf1]
        exact eraseWish_append_one hf hwmatch
      refine ⟨?_, ?_, ?_, ?_⟩
      · rw [ht1, hred tbl, hf, hpres]; rfl
      · rw [hpres1, hpres]; rfl
      · rw [ht2, ht1, hred (tbl ++ [mkWishRow uid oid kvs]), hf1, hpres]
        simp only [eraseWish_append_one hf hwmatch]
      · rw [ht2]

theorem toggle_wishlist_involution_witness :
    (countKey 1 "of1" ([] : List WishRow) ≤ 1) ∧
    inWishlist 1 "of1" (toggleState 1 payloadToggle (toggleState 1 payloadToggle [])) =
      inWishlist 1 "of1" ([] : List WishRow) :=
  ⟨by decide,
   (toggle_wishlist_involution 1 payloadToggle [] "of1" rfl (by decide) (by decide)).2.2.2⟩

mutual
theorem walk_eq : ∀ j : Json, walk j = (strings j).filter isImgCandidate
  | Json.null => rfl
  | Json.bool _ => rfl
  | Json.num _ => rfl
  | Json.str s => by
      cases h : isImgCandidate s <;> simp [walk, strings, List.filter, h]
  | Json.arr xs => by simp [walk, strings, walkL_eq xs]
  | Json.obj kvs => by simp [walk, strings, walkO_eq kvs]
theorem walkL_eq : ∀ xs : List Json, walkL xs = (stringsL xs).filter isImgCandidate
  | [] => rfl
  | x :: xs => by simp [walkL, stringsL, walk_eq x, walkL_eq xs, List.filter_append]
theorem walkO_eq : ∀ kvs : List (String × Json),
    walkO kvs = (stringsO kvs).filter isImgCandidate
  | [] => rfl
  | (k, v) :: kvs => by simp [walkO, stringsO, walk_eq v, walkO_eq kvs, List.filter_append]
end

theorem scanFallback_empty (entry : Json) (h : walk entry = []) : scanFallback entry = "" := by
  simp [scanFallback, h]

theorem walk_isEmpty_false (entry : Json) (h : walk entry ≠ []) :
    (walk entry).isEmpty = false := by
  cases hw : walk entry with
  | nil => exact absurd hw h
  | cons a as => rfl

theorem scanFallback_mem (entry : Json) (h : walk entry ≠ []) :
    scanFallback entry ∈ walk entry := by
  have hp := List.perm_insertionSort scoreGE (walk entry)
  have hne : (walk entry).insertionSort scoreGE ≠ [] := by
    intro hnil
    rw [hnil] at hp
    exact h hp.nil_eq.symm
  have hie := walk_isEmpty_false entry h
  have hm : scanFallback entry ∈ (walk entry).insertionSort scoreGE := by
    cases hs : (walk entry).insertionSort scoreGE with
    | nil => exact absurd hs hne
    | cons a as => simp [scanFallback, hie, hs]
  exact hp.mem_iff.mp hm

theorem scanFallback_max (entry : Json) (c : String) (hc : c ∈ walk entry) :
    score_url c ≤ score_url (scanFallback entry) := by
  have h : walk entry ≠ [] := by
    intro hnil
    rw [hnil] at hc
    cases hc
  have hie := walk_isEmpty_false entry h
  have hs := List.sorted_insertionSort scoreGE (walk entry)
  have hp := List.perm_insertionSort scoreGE (walk entry)
  have hm : c ∈ (walk entry).insertionSort scoreGE := hp.mem_iff.mpr hc
  cases hq : (walk entry).insertionSort scoreGE with
  | nil => rw [hq] at hm; cases hm
  | cons a as =>
      rw [hq] at hm hs
      cases hm with
      | head => simp [scanFallback, hie, hq]
      | tail _ hmem =>
          have hr := (List.sorted_cons.mp hs).1 c hmem
          simpa [scanFallback, hie, hq, scoreGE] using hr

theorem best_image_endswith_cx :
    steps14 entryQueryUrl = Except.ok none ∧
    specScanCandidates entryQueryUrl = [] ∧
    best_image entryQueryUrl = Except.ok "http://cdn.example/img.png?v=2" ∧
    ("http://cdn.example/img.png?v=2" : String) ≠ "" :=
  ⟨rfl, rfl, rfl, by decide⟩

/-- Claim C3 (amended): when fallback steps 1-4 find no image,
`best_image` returns the result of the whole-document scan: the candidates
are exactly the strings occurring anywhere in the entry that start with
"http" and contain a known image extension (as a substring, not
necessarily as a suffix), each scored by `score_url`, and the result is a
candidate of maximal score, or the empty string when no candidate
exists. -/
theorem best_image_fallback_scan (entry : Json) (h : steps14 entry = Except.ok none) :
    best_image entry = Except.ok (scanFallback entry) ∧
    (∀ c, c ∈ walk entry ↔ (c ∈ strings entry ∧ isImgCandidate c = true)) ∧
    (walk entry = [] → scanFallback entry = "") ∧
    (walk entry ≠ [] → scanFallback entry ∈ walk entry ∧
      ∀ c ∈ walk entry, score_url c ≤ score_url (scanFallback entry)) := by
  refine ⟨?_, ?_, ?_, ?_⟩
  · simp [best_image, h, Bind.bind, Except.bind, pure, Except.pure]
  · intro c
    rw [walk_eq entry]
    simp [List.mem_filter]
  · exact scanFallback_empty entry
  · intro hne
    exact ⟨scanFallback_mem entry hne, fun c hc => scanFallback_max entry c hc⟩

theorem best_image_fallback_scan_witness :
    steps14 entryNestedUrl = Except.ok none ∧
    best_image entryNestedUrl = Except.ok "http://cdn.example/tile.png" := by
  have h := (best_image_fallback_scan entryNestedUrl rfl).1
  refine ⟨rfl, ?_⟩
  rw [h]
  rfl

theorem jget_of_get_ok : ∀ {x : Json} {k : String} {v : Json},
    Json.get x k = Except.ok v → jget x k = v := by
  intro x k v h
  cases x with
  | obj kvs => simp [Json.get] at h; simpa [jget] using h
  | null => simp [Json.get] at h
  | bool b => simp [Json.get] at h
  | num n => simp [Json.get] at h
  | str s => simp [Json.get] at h
  | arr xs => simp [Json.get] at h

theorem offerIdOf_obj (kvs : List (String × Json)) :
    offerIdOf (Json.obj kvs) = Except.ok (specOfferId kvs) := by
  by_cases ht : truthy (lookup kvs "offerId") = true
  · simp [offerIdOf, specOfferId, Json.get, Bind.bind, Except.bind, pure, Except.pure,
      pyOr, ht]
  · simp [offerIdOf, specOfferId, Json.get, Bind.bind, Except.bind, pure, Except.pure,
      pyOr, ht]

theorem firstItem_obj (kvs : List (String × Json)) :
    firstItem (Json.obj kvs) = Except.ok (specFirstItem kvs) := by
  cases hP : pyOr (lookup kvs "items") (Json.arr []) with
  | arr xs =>
      cases xs <;> simp [firstItem, specFirstItem, Json.get, Bind.bind, Except.bind,
        pure, Except.pure, hP]
  | null =>
      simp [firstItem, specFirstItem, Json.get, Bind.bind, Except.bind,
        pure, Except.pure, hP]
  | bool b =>
      simp [firstItem, specFirstItem, Json.get, Bind.bind, Except.bind,
        pure, Except.pure, hP]
  | num n =>
      simp [firstItem, specFirstItem, Json.get, Bind.bind, Except.bind,
        pure, Except.pure, hP]
  | str s =>
      simp [firstItem, specFirstItem, Json.get, Bind.bind, Except.bind,
        pure, Except.pure, hP]
  | obj kvs2 =>
      simp [firstItem, specFirstItem, Json.get, Bind.bind, Except.bind,
        pure, Except.pure, hP]

theorem get_obj_eq (kvs : List (String × Json)) (k : String) :
    Json.get (Json.obj kvs) k = Except.ok (lookup kvs k) := rfl

theorem parseEntry_obj_inv (kvs : List (String × Json)) :
    ∀ o, parseEntry (Json.obj kvs) = Except.ok o →
    (specOfferId kvs = "" ∧ o = none) ∨
    (specOfferId kvs ≠ "" ∧ ∃ img, o = some
      { sectionName := specSection kvs, offer_id := specOfferId kvs,
        name := specName kvs, price := lookup kvs "finalPrice",
        rarity := specRarity kvs, type := specType kvs,
        description := specDescription kvs, image := img }) := by
  intro o hpe
  simp only [parseEntry, offerIdOf_obj, Bind.bind, Except.bind] at hpe
  by_cases hid : specOfferId kvs = ""
  · rw [if_pos hid] at hpe
    left
    refine ⟨hid, ?_⟩
    simp [pure, Except.pure] at hpe
    exact hpe.symm
  · rw [if_neg hid] at hpe
    right
    refine ⟨hid, ?_⟩
    simp only [get_obj_eq, Bind.bind, Except.bind, firstItem_obj] at hpe
    cases h3 : Json.get (pyOr (lookup kvs "section") (Json.obj [])) "name" with
    | error e3 => rw [h3] at hpe; simp at hpe
    | ok v3 =>
    rw [h3] at hpe
    simp only [Except.bind] at hpe
    cases h5 : Json.get (specFirstItem kvs) "name" with
    | error e5 => rw [h5] at hpe; simp at hpe
    | ok v5 =>
    rw [h5] at hpe
    simp only [Except.bind] at hpe
    by_cases ht : truthy v5 = true
    case pos =>
      rw [if_pos ht] at hpe
      simp only [pure, Except.pure, Except.bind] at hpe
      rw [show v5 = pyOr v5 (pyOr (lookup kvs "devName") (Json.str "Unknown Item"))
        from by simp [pyOr, ht]] at hpe
      cases h7 : Json.get (specFirstItem kvs) "rarity" with
      | error e7 => rw [h7] at hpe; simp at hpe
      | ok v7 =>
      rw [h7] at hpe
      simp only [Except.bind] at hpe
      cases h8 : Json.get (pyOr v7 (Json.obj [])) "value" with
      | error e8 => rw [h8] at hpe; simp at hpe
      | ok v8 =>
      rw [h8] at hpe
      simp only [Except.bind] at hpe
      cases h9 : Json.get (specFirstItem kvs) "type" with
      | error e9 => rw [h9] at hpe; simp at hpe
      | ok v9 =>
      rw [h9] at hpe
      simp only [Except.bind] at hpe
      cases h10 : Json.get (pyOr v9 (Json.obj [])) "value" with
      | error e10 => rw [h10] at hpe; simp at hpe
      | ok v10 =>
      rw [h10] at hpe
      simp only [Except.bind] at hpe
      cases h11 : Json.get (specFirstItem kvs) "description" with
      | error e11 => rw [h11] at hpe; simp at hpe
      | ok v11 =>
      rw [h11] at hpe
      simp only [Except.bind] at hpe
      cases h12 : best_image (Json.obj kvs) with
      | error e12 => rw [h12] at hpe; simp at hpe
      | ok img =>
      rw [h12] at hpe
      simp only [Except.bind, pure, Except.pure] at hpe
      refine ⟨img, ?_⟩
      injection hpe with hpe
      rw [← hpe]
      simp [specSection, specName, specRarity, specType, specDescription,
        jget_of_get_ok h3, jget_of_get_ok h5, jget_of_get_ok h7, jget_of_get_ok h8,
        jget_of_get_ok h9, jget_of_get_ok h10, jget_of_get_ok h11]
    case neg =>
      rw [if_neg ht] at hpe
      simp only [get_obj_eq, Bind.bind, Except.bind, pure, Except.pure] at hpe
      rw [show pyOr (lookup kvs "devName") (Json.str "Unknown Item") =
          pyOr v5 (pyOr (lookup kvs "devName") (Json.str "Unknown Item"))
        from by simp [pyOr, ht]] at hpe
      cases h7 : Json.get (specFirstItem kvs) "rarity" with
      | error e7 => rw [h7] at hpe; simp at hpe
      | ok v7 =>
      rw [h7] at hpe
      simp only [Except.bind] at hpe
      cases h8 : Json.get (pyOr v7 (Json.obj [])) "value" with
      | error e8 => rw [h8] at hpe; simp at hpe
      | ok v8 =>
      rw [h8] at hpe
      simp only [Except.bind] at hpe
      cases h9 : Json.get (specFirstItem kvs) "type" with
      | error e9 => rw [h9] at hpe; simp at hpe
      | ok v9 =>
      rw [h9] at hpe
      simp only [Except.bind] at hpe
      cases h10 : Json.get (pyOr v9 (Json.obj [])) "value" with
      | error e10 => rw [h10] at hpe; simp at hpe
      | ok v10 =>
      rw [h10] at hpe
      simp only [Except.bind] at hpe
      cases h11 : Json.get (specFirstItem kvs) "description" with
      | error e11 => rw [h11] at hpe; simp at hpe
      | ok v11 =>
      rw [h11] at hpe
      simp only [Except.bind] at hpe
      cases h12 : best_image (Json.obj kvs) with
      | error e12 => rw [h12] at hpe; simp at hpe
      | ok img =>
      rw [h12] at hpe
      simp only [Except.bind, pure, Except.pure] at hpe
      refine ⟨img, ?_⟩
      injection hpe with hpe
      rw [← hpe]
      simp [specSection, specName, specRarity, specType, specDescription,
        jget_of_get_ok h3, jget_of_get_ok h5, jget_of_get_ok h7, jget_of_get_ok h8,
        jget_of_get_ok h9, jget_of_get_ok h10, jget_of_get_ok h11]

theorem parse_devname_masking_cx :
    parse_shop_items payloadDevName = Except.ok [recDevName] ∧
    recDevName.name = Json.str "DevThing" ∧
    ("DevThing" : String) ≠ "Unknown Item" ∧
    parse_shop_items payloadBlankOffer = Except.ok [] :=
  ⟨rfl, rfl, by decide, rfl⟩

/-- Claim C6 (amended): for a dict entry, the parser emits a record iff
the first truthy of the declared offer id and item id fields, converted
to string and trimmed, is non-blank (entries lacking both are skipped; a
truthy whitespace-only offer id masks the item id); each emitted record
takes display name, rarity, type and description from the first nested
item, the name falling back first to the entry-level devName and then to
the literal "Unknown Item", with the section label defaulting to
"Shop". -/
theorem parse_entry_policy (kvs : List (String × Json)) :
    (parseEntry (Json.obj kvs) = Except.ok none ↔ specOfferId kvs = "") ∧
    (∀ r, parseEntry (Json.obj kvs) = Except.ok (some r) →
      r.offer_id = specOfferId kvs ∧ specOfferId kvs ≠ "" ∧
      r.name = specName kvs ∧ r.sectionName = specSection kvs ∧
      r.rarity = specRarity kvs ∧ r.type = specType kvs ∧
      r.description = specDescription kvs ∧ r.price = lookup kvs "finalPrice") ∧
    (∀ rest, parseEntry (Json.obj kvs) = Except.ok none →
      processEntries (Json.obj kvs :: rest) = processEntries rest) ∧
    (∀ rest r, parseEntry (Json.obj kvs) = Except.ok (some r) →
      processEntries (Json.obj kvs :: rest) =
        Except.map (fun out => r :: out) (processEntries rest)) := by
  refine ⟨⟨?_, ?_⟩, ?_, ?_, ?_⟩
  · intro hok
    rcases parseEntry_obj_inv kvs none hok with ⟨hid, _⟩ | ⟨_, _, habs⟩
    · exact hid
    · exact Option.noConfusion habs
  · intro hid
    simp [parseEntry, offerIdOf_obj, hid, Bind.bind, Except.bind, pure, Except.pure]
  · intro r hok
    rcases parseEntry_obj_inv kvs (some r) hok with ⟨_, hcontra⟩ | ⟨hid, img, hsome⟩
    · exact Option.noConfusion hcontra
    · obtain rfl := Option.some.inj hsome
      exact ⟨rfl, hid, rfl, rfl, rfl, rfl, rfl, rfl⟩
  · intro rest h
    simp [processEntries, h, Bind.bind, Except.bind]
  · intro rest r h
    simp only [processEntries, h, Bind.bind, Except.bind]
    cases hrest : processEntries rest <;>
      simp [hrest, Except.map, Bind.bind, Except.bind, pure, Except.pure]

theorem parse_entry_policy_witness :
    parseEntry entryHat = Except.ok (some recHat) ∧
    recHat.name = specName [("offerId", Json.str " w6 "),
      ("items", Json.arr [Json.obj [("name", Json.str "Hat")]])] ∧
    specOfferId [("offerId", Json.str " w6 "),
      ("items", Json.arr [Json.obj [("name", Json.str "Hat")]])] ≠ "" :=
  ⟨rfl,
   ((parse_entry_policy [("offerId", Json.str " w6 "),
      ("items", Json.arr [Json.obj [("name", Json.str "Hat")]])]).2.1 recHat rfl).2.2.1,
   ((parse_entry_policy [("offerId", Json.str " w6 "),
      ("items", Json.arr [Json.obj [("name", Json.str "Hat")]])]).2.1 recHat rfl).2.1⟩
